import Mathlib

/-!
Verification of the weighted constant-function AMM core
(x/gamm/pool-models/balancer/amm.go and x/gamm/keeper/swap.go).

Modelling conventions:
- The external fixed-point decimal type (sdk.Dec) is modelled by exact rational
  arithmetic (ℚ).  The spec describes the decimal component as exact-or-bounded-error
  decimal arithmetic with truncation toward zero on the final result; truncation to
  integer precision (TruncateInt) is modelled explicitly by truncateInt.
- The arbitrary-precision integer type (sdk.Int) is modelled by ℤ.
- Asset denominations (Go strings) are modelled as opaque numeric identifiers
  with decidable equality.
- Fallible operations return Except; the panics of the external decimal
  arithmetic are modelled as explicit failures where noted.
- Stateful keeper operations are modelled by explicit state passing: a function
  takes the state and returns the (possibly partially mutated) state together
  with an Except result.
-/

/-- Asset denominations are opaque identifiers; the source uses Go strings,
modelled here by numeric identifiers with decidable equality. -/
abbrev Denom := ℕ

/-- Typed failure outcomes of the core (spec section 7; the Go source returns
error values or panics inside external arithmetic). -/
inductive Err where
  | sameDenomination
  | unknownDenomination
  | poolNotFound
  | poolInactive
  | invalidMathApprox
  | tooManyTokensOut
  | limitMinAmount
  | limitMaxAmount
  | excessiveShareRedemption
  | unsupportedJoinShape
  | notImplemented
  | insufficientFunds
  | invalidInput
  | domainErr
deriving DecidableEq, Repr

/-- sdk.Coin: a denomination together with an integer amount. -/
structure Coin where
  denom : Denom
  amount : ℤ
deriving DecidableEq, Repr

/-- sdk.DecCoin: a denomination together with a decimal amount. -/
structure DecCoin where
  denom : Denom
  amount : ℚ
deriving DecidableEq, Repr

/-- PoolAsset: a pool token (balance) together with its unnormalized weight. -/
structure PoolAsset where
  token : Coin
  weight : ℤ
deriving DecidableEq, Repr

/-- The balancer pool state (spec section 3): assets with balances and weights,
total issued shares, fee parameters, active-window status (modelled as a flag). -/
structure Pool where
  id : ℕ
  address : ℕ
  poolAssets : List PoolAsset
  totalWeight : ℤ
  totalSharesAmount : ℤ
  poolSwapFee : ℚ
  poolExitFee : ℚ
  active : Bool
deriving DecidableEq, Repr

/-- sdk.Dec.TruncateInt: truncation toward zero to integer precision. -/
def truncateInt (d : ℚ) : ℤ := Int.tdiv d.num d.den

/-- Lookup of the first asset carrying a denomination in an asset list. -/
def findAsset : List PoolAsset → Denom → Option PoolAsset
  | [], _ => none
  | a :: rest, d => if a.token.denom = d then some a else findAsset rest d

/-- Modelled from the spec: pool-asset lookup by denomination (accessor of the
pool model, x/gamm/pool-models/balancer/pool.go, not under src/).  Returns the
first asset whose token carries the requested denomination. -/
def Pool.GetPoolAsset (p : Pool) (denom : Denom) : Option PoolAsset :=
  findAsset p.poolAssets denom

/-- Modelled from the spec: the number of assets in the pool (accessor not under src/). -/
def Pool.NumAssets (p : Pool) : ℕ := p.poolAssets.length

/-- Modelled from the spec: the pool's total (unnormalized) weight (accessor not under src/). -/
def Pool.GetTotalWeight (p : Pool) : ℤ := p.totalWeight

/-- Modelled from the spec: the pool's total issued shares (accessor not under src/). -/
def Pool.GetTotalShares (p : Pool) : ℤ := p.totalSharesAmount

/-- Modelled from the spec: the pool's liquidity balances, one coin per asset
(accessor not under src/). -/
def Pool.GetTotalLpBalances (p : Pool) : List Coin := p.poolAssets.map (·.token)

/-- Modelled from the spec: replace the balance of the asset carrying the given
denomination (accessor not under src/). -/
def Pool.UpdatePoolAssetBalance (p : Pool) (coin : Coin) : Pool :=
  { p with poolAssets :=
      p.poolAssets.map (fun a => if a.token.denom = coin.denom then { a with token := coin } else a) }

/-- The fixed tolerance of the iterative fractional-power approximation
(spec section 9: a fixed, documented error bound). -/
def powPrecision : ℚ := 1 / 100000000

/-- The fixed iteration bound of the fractional-power approximation. -/
def powIterationBound : ℕ := 300

/-- Modelled from the spec: one step of the iterative binomial-series
approximation of base ^ exp with base = 1 + x.  Terms follow
term (k+1) = term k * (exp - k) * x / (k + 1); summation stops once the
current term is below the fixed tolerance or the iteration bound is reached. -/
def powSeriesAux (x a : ℚ) : ℕ → ℕ → ℚ → ℚ → ℚ
  | 0, _, _, sum => sum
  | fuel + 1, k, term, sum =>
    if |term| < powPrecision then sum
    else
      let nextTerm := term * (a - (k : ℚ)) * x / ((k : ℚ) + 1)
      powSeriesAux x a fuel (k + 1) nextTerm (sum + nextTerm)

/-- Modelled from the spec: the deterministic iterative approximation of
base ^ exp at the fixed tolerance (osmomath, repository code not under src/). -/
def powSeries (base exp : ℚ) : ℚ := powSeriesAux (base - 1) exp powIterationBound 0 1 1

/-- Modelled from the spec: osmomath.Pow (repository code not under src/):
fractional exponentiation by the fixed iterative approximation; a non-positive
base is a domain error (the source panics there). -/
def osmomathPow (base exp : ℚ) : Option ℚ :=
  if base ≤ 0 then none else some (powSeries base exp)

/-- solveConstantFunctionInvariant (amm.go lines 18 to 35): the generalized
constant-function equation
delta = balanceUnknown * (1 - (balanceFixedBefore / balanceFixedAfter) ^ (weightFixed / weightUnknown)).
The explicit domain guard is Modelled from the spec: solveInvariant fails if
balanceFixedAfter <= 0 or weightUnknown <= 0 (domain error); in the source this
failure is realized as panics inside the external decimal division and inside
osmomath.Pow, neither of which is under src/. -/
def solveConstantFunctionInvariant
    (tokenBalanceFixedBefore tokenBalanceFixedAfter tokenWeightFixed
     tokenBalanceUnknownBefore tokenWeightUnknown : ℚ) : Option ℚ :=
  if tokenBalanceFixedAfter ≤ 0 ∨ tokenWeightUnknown ≤ 0 then none
  else
    let wQuot := tokenWeightFixed / tokenWeightUnknown
    let y := tokenBalanceFixedBefore / tokenBalanceFixedAfter
    (osmomathPow y wQuot).map (fun foo => tokenBalanceUnknownBefore * (1 - foo))

/-- Modelled from the spec: parsePoolAssets (pool helper not under src/):
expects exactly one input coin and resolves the in and out pool assets;
a denomination that is not a pool asset is an UnknownDenomination failure. -/
def Pool.parsePoolAssets (p : Pool) (tokensIn : List Coin) (tokenOutDenom : Denom) :
    Except Err (Coin × PoolAsset × PoolAsset) :=
  match tokensIn with
  | [tokenIn] =>
    match p.GetPoolAsset tokenIn.denom, p.GetPoolAsset tokenOutDenom with
    | some assetIn, some assetOut => .ok (tokenIn, assetIn, assetOut)
    | _, _ => .error .unknownDenomination
  | _ => .error .invalidInput

/-- CalcOutAmtGivenIn (amm.go lines 39 to 58): token out given token in,
fee deducted on the input side, via solveConstantFunctionInvariant. -/
def Pool.CalcOutAmtGivenIn (p : Pool) (tokensIn : List Coin) (tokenOutDenom : Denom)
    (swapFee : ℚ) : Except Err DecCoin :=
  match p.parsePoolAssets tokensIn tokenOutDenom with
  | .error e => .error e
  | .ok (tokenIn, poolAssetIn, poolAssetOut) =>
    let tokenAmountInAfterFee := (tokenIn.amount : ℚ) * (1 - swapFee)
    let poolTokenInBalance := (poolAssetIn.token.amount : ℚ)
    let poolPostSwapInBalance := poolTokenInBalance + tokenAmountInAfterFee
    match solveConstantFunctionInvariant poolTokenInBalance poolPostSwapInBalance
        (poolAssetIn.weight : ℚ) (poolAssetOut.token.amount : ℚ) (poolAssetOut.weight : ℚ) with
    | none => .error .domainErr
    | some tokenAmountOut => .ok ⟨tokenOutDenom, tokenAmountOut⟩

/-- CalcInAmtGivenOut (amm.go lines 62 to 83): token in required for a given
token out, the fee grossed up on the input side by dividing by (1 - swapFee). -/
def Pool.CalcInAmtGivenOut (p : Pool) (tokensOut : List Coin) (tokenInDenom : Denom)
    (swapFee : ℚ) : Except Err DecCoin :=
  match p.parsePoolAssets tokensOut tokenInDenom with
  | .error e => .error e
  | .ok (tokenOut, poolAssetOut, poolAssetIn) =>
    let poolTokenOutBalance := (poolAssetOut.token.amount : ℚ)
    let poolPreSwapOutBalance := poolTokenOutBalance - (tokenOut.amount : ℚ)
    match solveConstantFunctionInvariant poolTokenOutBalance poolPreSwapOutBalance
        (poolAssetOut.weight : ℚ) (poolAssetIn.token.amount : ℚ) (poolAssetIn.weight : ℚ) with
    | none => .error .domainErr
    | some tokenAmountIn => .ok ⟨tokenInDenom, tokenAmountIn / (1 - swapFee)⟩

/-- Modelled from the spec: parsePoolAssetsByDenoms (pool helper not under src/):
resolves two pool assets by denomination. -/
def Pool.parsePoolAssetsByDenoms (p : Pool) (denomA denomB : Denom) :
    Except Err (PoolAsset × PoolAsset) :=
  match p.GetPoolAsset denomA, p.GetPoolAsset denomB with
  | some a, some b => .ok (a, b)
  | _, _ => .error .unknownDenomination

/-- SpotPrice (amm.go lines 104 to 115): the weight-adjusted balance ratio
(base.balance / base.weight) / (quote.balance / quote.weight). -/
def Pool.SpotPrice (p : Pool) (quoteAsset baseAsset : Denom) : Except Err ℚ :=
  match p.parsePoolAssetsByDenoms quoteAsset baseAsset with
  | .error e => .error e
  | .ok (quote, base) =>
    .ok (((base.token.amount : ℚ) / (base.weight : ℚ)) /
         ((quote.token.amount : ℚ) / (quote.weight : ℚ)))

/-- calcPoolOutGivenSingleIn (amm.go lines 118 to 148): shares minted for a
single-asset deposit; the effective fee is swapFee * (1 - normalizedWeight) and
the invariant solver is reused with the unknown side's weight fixed at one,
with the sign of the answer reversed. -/
def calcPoolOutGivenSingleIn (tokenBalanceIn normalizedTokenWeightIn poolShares
    tokenAmountIn swapFee : ℚ) : Option ℚ :=
  let effectiveSwapFee := (1 - normalizedTokenWeightIn) * swapFee
  let tokenAmountInAfterFee := tokenAmountIn * (1 - effectiveSwapFee)
  (solveConstantFunctionInvariant (tokenBalanceIn + tokenAmountInAfterFee) tokenBalanceIn
      normalizedTokenWeightIn poolShares 1).map (fun s => -s)

/-- singleAssetJoin (amm.go lines 151 to 164): normalizes the deposited asset's
weight and truncates the computed share amount toward zero. -/
def Pool.singleAssetJoin (p : Pool) (tokenIn : Coin) (swapFee : ℚ) : Except Err ℤ :=
  match p.GetPoolAsset tokenIn.denom with
  | none => .error .unknownDenomination
  | some tokenInPoolAsset =>
    let normalizedWeight := (tokenInPoolAsset.weight : ℚ) / (p.GetTotalWeight : ℚ)
    match calcPoolOutGivenSingleIn (tokenInPoolAsset.token.amount : ℚ) normalizedWeight
        (p.GetTotalShares : ℚ) (tokenIn.amount : ℚ) swapFee with
    | none => .error .domainErr
    | some shares => .ok (truncateInt shares)

/-- JoinPool (amm.go lines 167 to 175): a single supplied asset delegates to
singleAssetJoin; a supplied asset count equal to the pool's asset count is the
unimplemented proportional join; any other count is an unsupported join shape. -/
def Pool.JoinPool (p : Pool) (tokensIn : List Coin) (swapFee : ℚ) : Except Err ℤ :=
  match tokensIn with
  | [tokenIn] => p.singleAssetJoin tokenIn swapFee
  | _ =>
    if tokensIn.length ≠ p.NumAssets then .error .unsupportedJoinShape
    else .error .notImplemented

/-- ExitPool (amm.go lines 177 to 208): fails when exitingShares is at least
totalShares; otherwise computes refundedShares (exactly exitingShares when the
exit fee is zero), shareOutRatio = totalShares / refundedShares, withdraws the
truncated shareOutRatio portion of every balance (skipping non-positive
amounts), and burns the full exitingShares.  The pool is threaded explicitly:
the second component is the (possibly mutated) pool. -/
def Pool.ExitPool (p : Pool) (exitingShares : ℤ) (exitFee : ℚ) :
    Except Err (List Coin) × Pool :=
  let totalShares := p.GetTotalShares
  if totalShares ≤ exitingShares then (.error .excessiveShareRedemption, p)
  else
    let refundedShares : ℤ :=
      if exitFee = 0 then exitingShares else truncateInt ((1 - exitFee) * (exitingShares : ℚ))
    let shareOutQuot : ℚ := (totalShares : ℚ) / (refundedShares : ℚ)
    let step : List Coin × Pool → Coin → List Coin × Pool := fun acc asset =>
      let exitAmt := truncateInt (shareOutQuot * (asset.amount : ℚ))
      if exitAmt ≤ 0 then acc
      else
        (acc.1 ++ [⟨asset.denom, exitAmt⟩],
         acc.2.UpdatePoolAssetBalance ⟨asset.denom, asset.amount - exitAmt⟩)
    let folded := p.GetTotalLpBalances.foldl step ([], p)
    (.ok folded.1, { folded.2 with totalSharesAmount := totalShares - exitingShares })

/-- One ledger account balance: account, denomination, amount. -/
structure BankEntry where
  acct : ℕ
  denom : Denom
  amount : ℤ
deriving DecidableEq, Repr

/-- The persisted state seen by the keeper: the pool repository and the
external ledger's account balances (spec section 6 collaborators). -/
structure SwapState where
  pools : List Pool
  bank : List BankEntry
deriving DecidableEq, Repr

/-- Modelled from the spec: the pool repository's load operation (keeper code
not under src/). -/
def SwapState.GetPool (st : SwapState) (poolId : ℕ) : Option Pool :=
  st.pools.find? (fun p => p.id == poolId)

/-- Modelled from the spec: the pool repository's store operation (keeper code
not under src/). -/
def SwapState.SetPool (st : SwapState) (pool : Pool) : SwapState :=
  { st with pools := st.pools.map (fun q => if q.id == pool.id then pool else q) }

/-- Ledger balance lookup for an account and denomination. -/
def SwapState.getBalance (st : SwapState) (acct : ℕ) (denom : Denom) : ℤ :=
  ((st.bank.find? (fun e => e.acct == acct && e.denom == denom)).map (·.amount)).getD 0

/-- Ledger balance write for an account and denomination. -/
def SwapState.setBalance (st : SwapState) (acct : ℕ) (denom : Denom) (amount : ℤ) : SwapState :=
  if (st.bank.find? (fun e => e.acct == acct && e.denom == denom)).isSome then
    let newBank := st.bank.map
      (fun e => if e.acct == acct && e.denom == denom then { e with amount := amount } else e)
    { st with bank := newBank }
  else { st with bank := st.bank ++ [⟨acct, denom, amount⟩] }

/-- Modelled from the spec: the external ledger service's transfer contract
(section 6): moves a coin from sender to receiver, failing with
InsufficientFunds when the sender's balance is too small. -/
def SwapState.SendCoins (st : SwapState) (sender receiver : ℕ) (coin : Coin) :
    Except Err SwapState :=
  let senderBal := st.getBalance sender coin.denom
  if senderBal < coin.amount then .error .insufficientFunds
  else
    let st1 := st.setBalance sender coin.denom (senderBal - coin.amount)
    let st2 := st1.setBalance receiver coin.denom (st1.getBalance receiver coin.denom + coin.amount)
    .ok st2

/-- Modelled from the spec: AddPoolAssetBalance of the pool interface (not
under src/): increase the balance of an existing pool asset. -/
def Pool.AddPoolAssetBalance (p : Pool) (coin : Coin) : Except Err Pool :=
  match p.GetPoolAsset coin.denom with
  | none => .error .unknownDenomination
  | some a => .ok (p.UpdatePoolAssetBalance ⟨coin.denom, a.token.amount + coin.amount⟩)

/-- Modelled from the spec: SubPoolAssetBalance of the pool interface (not
under src/): decrease the balance of an existing pool asset; the balance may
not go negative. -/
def Pool.SubPoolAssetBalance (p : Pool) (coin : Coin) : Except Err Pool :=
  match p.GetPoolAsset coin.denom with
  | none => .error .unknownDenomination
  | some a =>
    if a.token.amount - coin.amount < 0 then .error .insufficientFunds
    else .ok (p.UpdatePoolAssetBalance ⟨coin.denom, a.token.amount - coin.amount⟩)

/-- updatePoolForSwap (swap.go lines 125 to 167): stages the post-swap pool
balances, persists the pool, then performs the two ledger transfers.  The
returned state keeps whatever was persisted before a failure; rollback is the
enclosing transaction boundary's concern.  The swap event, the post-swap hook
and the liquidity records of lines 159 to 164 are external observers whose
return value is not consumed, so they carry no modelled state. -/
def updatePoolForSwap (st : SwapState) (pool : Pool) (sender : ℕ) (tokenIn tokenOut : Coin) :
    Except Err Unit × SwapState :=
  match pool.AddPoolAssetBalance tokenIn with
  | .error e => (.error e, st)
  | .ok pool1 =>
    match pool1.SubPoolAssetBalance tokenOut with
    | .error e => (.error e, st)
    | .ok pool2 =>
      let st1 := st.SetPool pool2
      match st1.SendCoins sender pool.address tokenIn with
      | .error e => (.error e, st1)
      | .ok st2 =>
        match st2.SendCoins pool.address sender tokenOut with
        | .error e => (.error e, st2)
        | .ok st3 => (.ok (), st3)

/-- Modelled from the spec: the keeper helper that loads the pool and resolves
the in and out assets (keeper code not under src/). -/
def getPoolAndInOutAssets (st : SwapState) (poolId : ℕ) (tokenInDenom tokenOutDenom : Denom) :
    Except Err (Pool × PoolAsset × PoolAsset) :=
  match st.GetPool poolId with
  | none => .error .poolNotFound
  | some pool =>
    match pool.GetPoolAsset tokenInDenom, pool.GetPoolAsset tokenOutDenom with
    | some assetIn, some assetOut => .ok (pool, assetIn, assetOut)
    | _, _ => .error .unknownDenomination

/-- A pool asset's normalized weight: weight divided by the pool's total weight. -/
def PoolAsset.normalizedWeight (a : PoolAsset) (totalWeight : ℤ) : ℚ :=
  (a.weight : ℚ) / (totalWeight : ℤ)

/-- Modelled from the spec: types.CalcOutGivenIn (x/gamm/types, not under
src/), section 4.2 steps 1 to 3, applied by the keeper to the normalized
assets. -/
def CalcOutGivenIn (tokenBalanceIn tokenWeightIn tokenBalanceOut tokenWeightOut
    tokenAmountIn swapFee : ℚ) : Option ℚ :=
  solveConstantFunctionInvariant tokenBalanceIn
    (tokenBalanceIn + tokenAmountIn * (1 - swapFee)) tokenWeightIn tokenBalanceOut tokenWeightOut

/-- Modelled from the spec: types.CalcInGivenOut (x/gamm/types, not under
src/), section 4.2: the invariant solved on the out side, the fee grossed up on
the input by dividing by (1 - swapFee). -/
def CalcInGivenOut (tokenBalanceOut tokenWeightOut tokenBalanceIn tokenWeightIn
    tokenAmountOut swapFee : ℚ) : Option ℚ :=
  (solveConstantFunctionInvariant tokenBalanceOut (tokenBalanceOut - tokenAmountOut)
      tokenWeightOut tokenBalanceIn tokenWeightIn).map (fun d => d / (1 - swapFee))

/-- SwapExactAmountIn (swap.go lines 12 to 64): validates, computes the out
amount, enforces the caller's minimum, then stages and commits via
updatePoolForSwap.  Lines 53 and 54 of the source update local copies of the
pool assets; the persisted mutation happens inside updatePoolForSwap. -/
def SwapExactAmountIn (st : SwapState) (sender : ℕ) (poolId : ℕ) (tokenIn : Coin)
    (tokenOutDenom : Denom) (tokenOutMinAmount : ℤ) : Except Err ℤ × SwapState :=
  if tokenIn.denom == tokenOutDenom then (.error .sameDenomination, st)
  else
    match getPoolAndInOutAssets st poolId tokenIn.denom tokenOutDenom with
    | .error e => (.error e, st)
    | .ok (pool, inPoolAsset, outPoolAsset) =>
      if ¬ pool.active then (.error .poolInactive, st)
      else
        match CalcOutGivenIn (inPoolAsset.token.amount : ℚ)
            (inPoolAsset.normalizedWeight pool.GetTotalWeight)
            (outPoolAsset.token.amount : ℚ)
            (outPoolAsset.normalizedWeight pool.GetTotalWeight)
            (tokenIn.amount : ℚ) pool.poolSwapFee with
        | none => (.error .domainErr, st)
        | some outDec =>
          let tokenOutAmount := truncateInt outDec
          if tokenOutAmount ≤ 0 then (.error .invalidMathApprox, st)
          else if tokenOutAmount < tokenOutMinAmount then (.error .limitMinAmount, st)
          else
            let tokenOut : Coin := ⟨tokenOutDenom, tokenOutAmount⟩
            match updatePoolForSwap st pool sender tokenIn tokenOut with
            | (.error e, st1) => (.error e, st1)
            | (.ok _, st1) => (.ok tokenOutAmount, st1)

/-- SwapExactAmountOut (swap.go lines 66 to 120): validates (including the
drain guard of lines 88 to 92), computes the in amount, enforces the caller's
maximum, then stages and commits via updatePoolForSwap. -/
def SwapExactAmountOut (st : SwapState) (sender : ℕ) (poolId : ℕ) (tokenInDenom : Denom)
    (tokenInMaxAmount : ℤ) (tokenOut : Coin) : Except Err ℤ × SwapState :=
  if tokenInDenom == tokenOut.denom then (.error .sameDenomination, st)
  else
    match getPoolAndInOutAssets st poolId tokenInDenom tokenOut.denom with
    | .error e => (.error e, st)
    | .ok (pool, inPoolAsset, outPoolAsset) =>
      if ¬ pool.active then (.error .poolInactive, st)
      else if outPoolAsset.token.amount ≤ tokenOut.amount then (.error .tooManyTokensOut, st)
      else
        match CalcInGivenOut (outPoolAsset.token.amount : ℚ)
            (outPoolAsset.normalizedWeight pool.GetTotalWeight)
            (inPoolAsset.token.amount : ℚ)
            (inPoolAsset.normalizedWeight pool.GetTotalWeight)
            (tokenOut.amount : ℚ) pool.poolSwapFee with
        | none => (.error .domainErr, st)
        | some inDec =>
          let tokenInAmount := truncateInt inDec
          if tokenInAmount ≤ 0 then (.error .invalidMathApprox, st)
          else if tokenInMaxAmount < tokenInAmount then (.error .limitMaxAmount, st)
          else
            let tokenIn : Coin := ⟨tokenInDenom, tokenInAmount⟩
            match updatePoolForSwap st pool sender tokenIn tokenOut with
            | (.error e, st1) => (.error e, st1)
            | (.ok _, st1) => (.ok tokenInAmount, st1)

/-- Modelled from the spec: the enclosing atomic-transaction boundary provided
by the host environment (section 4.4): a failed operation's staged state is
discarded and the pre-operation state is observed; a successful operation's
state is committed as one unit. -/
def runTx {α : Type} (f : SwapState → Except Err α × SwapState) (st : SwapState) :
    Except Err α × SwapState :=
  match f st with
  | (.ok v, st1) => (.ok v, st1)
  | (.error e, _) => (.error e, st)

/-- The calcOutGivenIn operation of the external interface (spec section 6):
the pool calculator (amm.go lines 39 to 58) followed by the truncation toward
zero and the positivity check of the swap orchestrator (swap.go lines 43 to 47). -/
def calcOutGivenInOp (p : Pool) (tokenIn : Coin) (tokenOutDenom : Denom) (swapFee : ℚ) :
    Except Err ℤ :=
  match p.CalcOutAmtGivenIn [tokenIn] tokenOutDenom swapFee with
  | .error e => .error e
  | .ok d =>
    let t := truncateInt d.amount
    if t ≤ 0 then .error .invalidMathApprox else .ok t

/-- The calcInGivenOut operation of the external interface (spec section 6):
the drain guard of the swap orchestrator (swap.go lines 88 to 92) followed by
the pool calculator (amm.go lines 62 to 83). -/
def calcInGivenOutOp (p : Pool) (tokenOut : Coin) (tokenInDenom : Denom) (swapFee : ℚ) :
    Except Err ℚ :=
  match p.GetPoolAsset tokenOut.denom with
  | none => .error .unknownDenomination
  | some poolAssetOut =>
    if poolAssetOut.token.amount ≤ tokenOut.amount then .error .tooManyTokensOut
    else
      match p.CalcInAmtGivenOut [tokenOut] tokenInDenom swapFee with
      | .error e => .error e
      | .ok d => .ok d.amount

/-- The single-asset join operation: the pool's share calculation (amm.go lines
118 to 164) followed by the positivity check.  The InvalidMathApprox check on
the truncated result is Modelled from the spec (section 4.3): it lives in the
keeper's join orchestrator, which is not under src/. -/
def singleAssetJoinOp (p : Pool) (tokenIn : Coin) (swapFee : ℚ) : Except Err ℤ :=
  match p.singleAssetJoin tokenIn swapFee with
  | .error e => .error e
  | .ok s => if s ≤ 0 then .error .invalidMathApprox else .ok s

/-- Increase the balance of the asset carrying the coin's denomination. -/
def Pool.addAmount (p : Pool) (coin : Coin) : Pool :=
  let newAssets := p.poolAssets.map
    (fun a => if a.token.denom = coin.denom then
        { a with token := ⟨a.token.denom, a.token.amount + coin.amount⟩ } else a)
  { p with poolAssets := newAssets }

/-- Modelled from the spec: the joinPool operation contract of section 6
(shares minted, mutated pool).  The share computation and join-shape dispatch
are the pool's JoinPool (amm.go lines 167 to 175, under src/); the positivity
check and the application of the state change (deposit added to the balances,
minted shares added to totalShares) live in the keeper's join orchestrator,
which is not under src/, and are modelled from the spec. -/
def joinPoolOp (p : Pool) (tokensIn : List Coin) (swapFee : ℚ) : Except Err (ℤ × Pool) :=
  match p.JoinPool tokensIn swapFee with
  | .error e => .error e
  | .ok numShares =>
    if numShares ≤ 0 then .error .invalidMathApprox
    else .ok (numShares,
      { tokensIn.foldl Pool.addAmount p with
          totalSharesAmount := p.totalSharesAmount + numShares })

/-! Helper lemmas. -/

theorem truncateInt_intCast (n : ℤ) : truncateInt ((n : ℤ) : ℚ) = n := by
  rw [truncateInt, Rat.num_intCast, Rat.den_intCast]
  simp

theorem runTx_error {α : Type} (f : SwapState → Except Err α × SwapState) (st : SwapState)
    (e : Err) (st1 : SwapState) (h : runTx f st = (.error e, st1)) : st1 = st := by
  rw [runTx] at h
  rcases hf : f st with ⟨r, st2⟩
  rw [hf] at h
  cases r with
  | ok v => simp at h
  | error e2 => simp at h; exact h.2.symm

/-- C7: solveConstantFunctionInvariant fails with a domain error whenever
balanceFixedAfter is non-positive or weightUnknown is non-positive. -/
theorem solveConstantFunctionInvariant_domain
    (balanceFixedBefore balanceFixedAfter weightFixed balanceUnknownBefore weightUnknown : ℚ)
    (h : balanceFixedAfter ≤ 0 ∨ weightUnknown ≤ 0) :
    solveConstantFunctionInvariant balanceFixedBefore balanceFixedAfter weightFixed
      balanceUnknownBefore weightUnknown = none := by
  rw [solveConstantFunctionInvariant, if_pos h]

theorem solveConstantFunctionInvariant_domain_witness :
    ((0 : ℚ) ≤ 0 ∨ (1 : ℚ) ≤ 0) ∧
      solveConstantFunctionInvariant 1 0 1 1 1 = none :=
  ⟨Or.inl (le_refl 0),
   solveConstantFunctionInvariant_domain 1 0 1 1 1 (Or.inl (le_refl 0))⟩

/-- C8: JoinPool delegates to singleAssetJoin when exactly one asset is
supplied; when the supplied asset count equals the pool's asset count (and is
not one) it fails with the explicit not-implemented error; any other count
fails with the unsupported-join-shape error. -/
theorem joinPool_shape (p : Pool) (tokensIn : List Coin) (swapFee : ℚ) :
    (∀ t, tokensIn = [t] → p.JoinPool tokensIn swapFee = p.singleAssetJoin t swapFee) ∧
    (tokensIn.length ≠ 1 → tokensIn.length = p.NumAssets →
      p.JoinPool tokensIn swapFee = .error .notImplemented) ∧
    (tokensIn.length ≠ 1 → tokensIn.length ≠ p.NumAssets →
      p.JoinPool tokensIn swapFee = .error .unsupportedJoinShape) := by
  refine ⟨?_, ?_, ?_⟩
  · rintro t rfl
    rfl
  · intro h1 h2
    cases tokensIn with
    | nil =>
      simp only [Pool.JoinPool]
      rw [if_neg (fun hne => hne h2)]
    | cons a rest =>
      cases rest with
      | nil => exact absurd (by simp : (List.length [a] = 1)) h1
      | cons b rest2 =>
        simp only [Pool.JoinPool]
        rw [if_neg (fun hne => hne h2)]
  · intro h1 h2
    cases tokensIn with
    | nil =>
      simp only [Pool.JoinPool]
      rw [if_pos h2]
    | cons a rest =>
      cases rest with
      | nil => exact absurd (by simp : (List.length [a] = 1)) h1
      | cons b rest2 =>
        simp only [Pool.JoinPool]
        rw [if_pos h2]

/-- Scenario D of the spec: a two-asset join on a three-asset pool is an
unsupported join shape. -/
theorem joinPool_shape_witness :
    Pool.JoinPool
      { id := 1, address := 9, poolAssets := [⟨⟨0, 10⟩, 1⟩, ⟨⟨1, 10⟩, 1⟩, ⟨⟨2, 10⟩, 1⟩],
        totalWeight := 3, totalSharesAmount := 100, poolSwapFee := 0, poolExitFee := 0,
        active := true } [⟨0, 1⟩, ⟨1, 1⟩] 0 = .error .unsupportedJoinShape := by
  refine (joinPool_shape _ [⟨0, 1⟩, ⟨1, 1⟩] 0).2.2 (by decide) ?_
  rw [Pool.NumAssets]
  decide

theorem truncateInt_eq_of_cast (q : ℚ) (n : ℤ) (h : q = (n : ℚ)) : truncateInt q = n := by
  rw [h, truncateInt_intCast]

/-- A one-asset pool with balance 1000 and 100 outstanding shares. -/
def exitDemoPool : Pool :=
  { id := 1, address := 9, poolAssets := [⟨⟨0, 1000⟩, 1⟩],
    totalWeight := 1, totalSharesAmount := 100, poolSwapFee := 0, poolExitFee := 0, active := true }

theorem exitDemoPool_exit_eq : exitDemoPool.ExitPool 50 0 =
    (.ok [⟨0, 2000⟩], { exitDemoPool with poolAssets := [⟨⟨0, -1000⟩, 1⟩], totalSharesAmount := 50 }) := by
  rw [Pool.ExitPool]
  rw [if_neg (by decide)]
  simp only [Pool.GetTotalShares, Pool.GetTotalLpBalances, Pool.UpdatePoolAssetBalance, exitDemoPool,
    List.map, List.foldl, if_pos rfl]
  rw [truncateInt_eq_of_cast _ 2000 (by push_cast; norm_num)]
  norm_num

/-- C1 (refuting the non-negativity invariant): a successful ExitPool call with
0 < exitingShares < totalShares on a pool whose balances are all non-negative
produces a pool with a negative asset balance.  With totalShares = 100,
exitingShares = 50 and a zero exit fee, shareOutRatio = totalShares /
refundedShares = 2, so the exit withdraws 2000 out of a balance of 1000 and
stores -1000. -/
theorem exitPool_produces_negative_balance :
    ((0 : ℤ) < 50 ∧ 50 < exitDemoPool.GetTotalShares) ∧
    (∀ a ∈ exitDemoPool.poolAssets, 0 ≤ a.token.amount) ∧
    (exitDemoPool.ExitPool 50 0).1 = .ok [⟨0, 2000⟩] ∧
    ((exitDemoPool.ExitPool 50 0).2.poolAssets.map fun a => a.token.amount) = [-1000] := by
  refine ⟨⟨by decide, by decide⟩, by decide, ?_, ?_⟩
  · rw [exitDemoPool_exit_eq]
  · rw [exitDemoPool_exit_eq]
    decide

/-- C6: every operation of the swap orchestrator, run inside the host
environment's atomic-transaction boundary, leaves the persisted state exactly
as before the operation whenever it fails — in particular when the external
ledger transfer fails after the swap's balances were staged (updatePoolForSwap
persists the pool before the transfers, so the rollback is supplied by the
boundary, as the spec delegates it). -/
theorem swap_failure_leaves_state_unchanged (st : SwapState) (sender poolId : ℕ) :
    (∀ tokenIn tokenOutDenom tokenOutMinAmount e st1,
       runTx (fun s => SwapExactAmountIn s sender poolId tokenIn tokenOutDenom tokenOutMinAmount) st
         = (.error e, st1) → st1 = st) ∧
    (∀ tokenInDenom tokenInMaxAmount tokenOut e st1,
       runTx (fun s => SwapExactAmountOut s sender poolId tokenInDenom tokenInMaxAmount tokenOut) st
         = (.error e, st1) → st1 = st) := by
  constructor
  · intro tokenIn d m e st1 h
    exact runTx_error _ st e st1 h
  · intro d m c e st1 h
    exact runTx_error _ st e st1 h

theorem swap_failure_leaves_state_unchanged_witness :
    (runTx (fun s => SwapExactAmountIn s 8 1 ⟨0, 100⟩ 0 0) ⟨[], []⟩).2 = (⟨[], []⟩ : SwapState) := by
  have h : runTx (fun s => SwapExactAmountIn s 8 1 ⟨0, 100⟩ 0 0) (⟨[], []⟩ : SwapState)
      = (.error .sameDenomination,
         (runTx (fun s => SwapExactAmountIn s 8 1 ⟨0, 100⟩ 0 0) (⟨[], []⟩ : SwapState)).2) := rfl
  exact (swap_failure_leaves_state_unchanged ⟨[], []⟩ 8 1).1 ⟨0, 100⟩ 0 0 .sameDenomination _ h

/-- C10: spot-price symmetry: for distinct known denominations with non-zero
balances and positive weights, the two opposite spot prices multiply to one. -/
theorem spotPrice_symmetry (p : Pool) (dQ dB : Denom) (qa ba : PoolAsset)
    (_hne : dQ ≠ dB)
    (hq : p.GetPoolAsset dQ = some qa) (hb : p.GetPoolAsset dB = some ba)
    (hqa : qa.token.amount ≠ 0) (hba : ba.token.amount ≠ 0)
    (hqw : 0 < qa.weight) (hbw : 0 < ba.weight) (r1 r2 : ℚ)
    (h1 : p.SpotPrice dQ dB = .ok r1) (h2 : p.SpotPrice dB dQ = .ok r2) :
    r1 * r2 = 1 := by
  rw [Pool.SpotPrice, Pool.parsePoolAssetsByDenoms, hq, hb] at h1
  rw [Pool.SpotPrice, Pool.parsePoolAssetsByDenoms, hb, hq] at h2
  simp only [Except.ok.injEq] at h1 h2
  have hqa2 : (qa.token.amount : ℚ) ≠ 0 := Int.cast_ne_zero.2 hqa
  have hba2 : (ba.token.amount : ℚ) ≠ 0 := Int.cast_ne_zero.2 hba
  have hqw2 : (qa.weight : ℚ) ≠ 0 := ne_of_gt (by exact_mod_cast hqw)
  have hbw2 : (ba.weight : ℚ) ≠ 0 := ne_of_gt (by exact_mod_cast hbw)
  rw [← h1, ← h2]
  field_simp
  ring

def spotDemoPool : Pool :=
  { id := 1, address := 9, poolAssets := [⟨⟨0, 100⟩, 1⟩, ⟨⟨1, 50⟩, 2⟩],
    totalWeight := 3, totalSharesAmount := 100, poolSwapFee := 0, poolExitFee := 0, active := true }

theorem spotPrice_symmetry_witness :
    spotDemoPool.SpotPrice 0 1 = .ok ((((50 : ℤ) : ℚ) / ((2 : ℤ) : ℚ)) / (((100 : ℤ) : ℚ) / ((1 : ℤ) : ℚ))) ∧
    spotDemoPool.SpotPrice 1 0 = .ok ((((100 : ℤ) : ℚ) / ((1 : ℤ) : ℚ)) / (((50 : ℤ) : ℚ) / ((2 : ℤ) : ℚ))) ∧
    (((((50 : ℤ) : ℚ) / ((2 : ℤ) : ℚ)) / (((100 : ℤ) : ℚ) / ((1 : ℤ) : ℚ))) *
     ((((100 : ℤ) : ℚ) / ((1 : ℤ) : ℚ)) / (((50 : ℤ) : ℚ) / ((2 : ℤ) : ℚ))) = 1) := by
  refine ⟨rfl, rfl, ?_⟩
  exact spotPrice_symmetry spotDemoPool 0 1 ⟨⟨0, 100⟩, 1⟩ ⟨⟨1, 50⟩, 2⟩ (by decide) rfl rfl
    (by decide) (by decide) (by decide) (by decide) _ _ rfl rfl

/-- C3: for a pool containing the distinct in and out denominations (with a
positive in-side balance, a non-negative deposit, a fee in the unit interval
and a positive out-side weight, so that the power operation is in its domain),
the calcOutGivenIn operation returns
balanceOut * (1 - (balanceIn / (balanceIn + tokenInAmount * (1 - swapFee))) ^ (weightIn / weightOut))
truncated toward zero, and fails with InvalidMathApprox exactly when the
truncated result is non-positive. -/
theorem calcOutGivenIn_spec (p : Pool) (tokenIn : Coin) (tokenOutDenom : Denom) (swapFee : ℚ)
    (assetIn assetOut : PoolAsset)
    (_hne : tokenIn.denom ≠ tokenOutDenom)
    (hIn : p.GetPoolAsset tokenIn.denom = some assetIn)
    (hOut : p.GetPoolAsset tokenOutDenom = some assetOut)
    (hbal : 0 < assetIn.token.amount)
    (hamt : 0 ≤ tokenIn.amount)
    (_hfee0 : 0 ≤ swapFee) (hfee1 : swapFee ≤ 1)
    (hw : 0 < assetOut.weight) :
    calcOutGivenInOp p tokenIn tokenOutDenom swapFee =
      (let t := truncateInt ((assetOut.token.amount : ℚ) *
        (1 - powSeries ((assetIn.token.amount : ℚ) /
            ((assetIn.token.amount : ℚ) + (tokenIn.amount : ℚ) * (1 - swapFee)))
          ((assetIn.weight : ℚ) / (assetOut.weight : ℚ))));
       if t ≤ 0 then .error .invalidMathApprox else .ok t) := by
  have hbal2 : (0 : ℚ) < (assetIn.token.amount : ℚ) := by exact_mod_cast hbal
  have hpost : (0 : ℚ) < (assetIn.token.amount : ℚ) + (tokenIn.amount : ℚ) * (1 - swapFee) := by
    have hnn := mul_nonneg (by exact_mod_cast hamt : (0 : ℚ) ≤ (tokenIn.amount : ℚ))
      (sub_nonneg.2 hfee1)
    linarith
  have hw2 : (0 : ℚ) < (assetOut.weight : ℚ) := by exact_mod_cast hw
  have hguard : ¬((assetIn.token.amount : ℚ) + (tokenIn.amount : ℚ) * (1 - swapFee) ≤ 0 ∨
      (assetOut.weight : ℚ) ≤ 0) := by
    push_neg
    exact ⟨hpost, hw2⟩
  have hbase : ¬((assetIn.token.amount : ℚ) /
      ((assetIn.token.amount : ℚ) + (tokenIn.amount : ℚ) * (1 - swapFee)) ≤ 0) :=
    not_le.2 (div_pos hbal2 hpost)
  simp only [calcOutGivenInOp, Pool.CalcOutAmtGivenIn, Pool.parsePoolAssets, hIn, hOut,
    solveConstantFunctionInvariant, osmomathPow, if_neg hguard, if_neg hbase]
  rfl

/-- A two-asset pool with equal weights, used as concrete input by witnesses. -/
def twoAssetPool : Pool :=
  { id := 1, address := 9, poolAssets := [⟨⟨0, 1000⟩, 1⟩, ⟨⟨1, 1000⟩, 1⟩],
    totalWeight := 2, totalSharesAmount := 100, poolSwapFee := 0, poolExitFee := 0, active := true }

theorem calcOutGivenIn_spec_witness :
    calcOutGivenInOp twoAssetPool ⟨0, 100⟩ 1 0 =
      (let t := truncateInt (((1000 : ℤ) : ℚ) *
        (1 - powSeries (((1000 : ℤ) : ℚ) / (((1000 : ℤ) : ℚ) + ((100 : ℤ) : ℚ) * (1 - 0)))
          (((1 : ℤ) : ℚ) / ((1 : ℤ) : ℚ))));
       if t ≤ 0 then .error .invalidMathApprox else .ok t) :=
  calcOutGivenIn_spec twoAssetPool ⟨0, 100⟩ 1 0 ⟨⟨0, 1000⟩, 1⟩ ⟨⟨1, 1000⟩, 1⟩
    (by decide) rfl rfl (by decide) (by decide) (le_refl 0) zero_le_one (by decide)

/-- C4: the calcInGivenOut operation fails with TooManyTokensOut exactly when
the requested out amount is at least the pool's out-side balance; otherwise
(for a non-negative out amount and a positive in-side weight) it returns
solveInvariant(balanceOut, balanceOut - tokenOutAmount, weightOut, balanceIn, weightIn) / (1 - swapFee),
the fee grossed up on the input side. -/
theorem calcInGivenOut_spec (p : Pool) (tokenOut : Coin) (tokenInDenom : Denom) (swapFee : ℚ)
    (assetOut assetIn : PoolAsset)
    (_hne : tokenOut.denom ≠ tokenInDenom)
    (hOut : p.GetPoolAsset tokenOut.denom = some assetOut)
    (hIn : p.GetPoolAsset tokenInDenom = some assetIn)
    (hout0 : 0 ≤ tokenOut.amount)
    (hwIn : 0 < assetIn.weight) :
    calcInGivenOutOp p tokenOut tokenInDenom swapFee =
      if assetOut.token.amount ≤ tokenOut.amount then .error .tooManyTokensOut
      else .ok ((assetIn.token.amount : ℚ) *
        (1 - powSeries ((assetOut.token.amount : ℚ) /
            ((assetOut.token.amount : ℚ) - (tokenOut.amount : ℚ)))
          ((assetOut.weight : ℚ) / (assetIn.weight : ℚ))) / (1 - swapFee)) := by
  by_cases hbr : assetOut.token.amount ≤ tokenOut.amount
  · rw [if_pos hbr]
    simp only [calcInGivenOutOp, hOut]
    rw [if_pos hbr]
  · rw [if_neg hbr]
    push_neg at hbr
    have hlt : (tokenOut.amount : ℚ) < (assetOut.token.amount : ℚ) := by exact_mod_cast hbr
    have hpre : (0 : ℚ) < (assetOut.token.amount : ℚ) - (tokenOut.amount : ℚ) := by linarith
    have hbalOut : (0 : ℚ) < (assetOut.token.amount : ℚ) := by
      have h0 : (0 : ℚ) ≤ (tokenOut.amount : ℚ) := by exact_mod_cast hout0
      linarith
    have hwIn2 : (0 : ℚ) < (assetIn.weight : ℚ) := by exact_mod_cast hwIn
    have hguard : ¬((assetOut.token.amount : ℚ) - (tokenOut.amount : ℚ) ≤ 0 ∨
        (assetIn.weight : ℚ) ≤ 0) := by
      push_neg
      exact ⟨hpre, hwIn2⟩
    have hbase : ¬((assetOut.token.amount : ℚ) /
        ((assetOut.token.amount : ℚ) - (tokenOut.amount : ℚ)) ≤ 0) :=
      not_le.2 (div_pos hbalOut hpre)
    simp only [calcInGivenOutOp, hOut, if_neg (not_le.2 hbr)]
    simp only [Pool.CalcInAmtGivenOut, Pool.parsePoolAssets, hOut, hIn,
      solveConstantFunctionInvariant, osmomathPow, if_neg hguard, if_neg hbase]
    rfl

theorem calcInGivenOut_spec_witness :
    calcInGivenOutOp twoAssetPool ⟨1, 90⟩ 0 0 =
      (if (1000 : ℤ) ≤ 90 then .error .tooManyTokensOut
       else .ok (((1000 : ℤ) : ℚ) *
        (1 - powSeries (((1000 : ℤ) : ℚ) / (((1000 : ℤ) : ℚ) - ((90 : ℤ) : ℚ)))
          (((1 : ℤ) : ℚ) / ((1 : ℤ) : ℚ))) / (1 - 0))) :=
  calcInGivenOut_spec twoAssetPool ⟨1, 90⟩ 0 0 ⟨⟨1, 1000⟩, 1⟩ ⟨⟨0, 1000⟩, 1⟩
    (by decide) rfl rfl (by decide) (by decide)

/-- The share amount computed by singleAssetJoin, in closed form: under the
domain hypotheses the result is
truncate(-(totalShares * (1 - powSeries((balance + amount * (1 - swapFee * (1 - w))) / balance, w / 1)))). -/
theorem singleAssetJoin_formula (p : Pool) (tokenIn : Coin) (swapFee : ℚ) (asset : PoolAsset)
    (hfind : p.GetPoolAsset tokenIn.denom = some asset)
    (hbal : 0 < asset.token.amount)
    (hamt : 0 ≤ tokenIn.amount)
    (hfee0 : 0 ≤ swapFee) (hfee1 : swapFee ≤ 1)
    (hw0 : 0 < asset.weight) (hwT : asset.weight ≤ p.totalWeight) :
    p.singleAssetJoin tokenIn swapFee =
      .ok (truncateInt (-((p.totalSharesAmount : ℚ) *
        (1 - powSeries (((asset.token.amount : ℚ) + (tokenIn.amount : ℚ) *
            (1 - swapFee * (1 - (asset.weight : ℚ) / (p.totalWeight : ℚ)))) /
            (asset.token.amount : ℚ))
          ((asset.weight : ℚ) / (p.totalWeight : ℚ) / 1))))) := by
  have hbal2 : (0 : ℚ) < (asset.token.amount : ℚ) := by exact_mod_cast hbal
  have hT : (0 : ℚ) < (p.totalWeight : ℚ) := by
    have h1 : (0 : ℤ) < p.totalWeight := lt_of_lt_of_le hw0 hwT
    exact_mod_cast h1
  have hw0q : (0 : ℚ) ≤ (asset.weight : ℚ) := by
    have h1 := le_of_lt hw0
    exact_mod_cast h1
  have hwTq : (asset.weight : ℚ) ≤ (p.totalWeight : ℚ) := by exact_mod_cast hwT
  have hwle1 : (asset.weight : ℚ) / (p.totalWeight : ℚ) ≤ 1 := (div_le_one hT).2 hwTq
  have hwge0 : 0 ≤ (asset.weight : ℚ) / (p.totalWeight : ℚ) := div_nonneg hw0q (le_of_lt hT)
  have hafter : (0 : ℚ) ≤ (tokenIn.amount : ℚ) *
      (1 - (1 - (asset.weight : ℚ) / (p.totalWeight : ℚ)) * swapFee) := by
    have h1 : (1 - (asset.weight : ℚ) / (p.totalWeight : ℚ)) * swapFee ≤ 1 := by
      nlinarith
    have h2 : (0 : ℚ) ≤ (tokenIn.amount : ℚ) := by exact_mod_cast hamt
    nlinarith
  have hpost : (0 : ℚ) < (asset.token.amount : ℚ) + (tokenIn.amount : ℚ) *
      (1 - (1 - (asset.weight : ℚ) / (p.totalWeight : ℚ)) * swapFee) := by linarith
  have hguard : ¬((asset.token.amount : ℚ) ≤ 0 ∨ (1 : ℚ) ≤ 0) := by
    push_neg
    exact ⟨hbal2, one_pos⟩
  have hbase : ¬(((asset.token.amount : ℚ) + (tokenIn.amount : ℚ) *
      (1 - (1 - (asset.weight : ℚ) / (p.totalWeight : ℚ)) * swapFee)) /
      (asset.token.amount : ℚ) ≤ 0) :=
    not_le.2 (div_pos hpost hbal2)
  simp only [Pool.singleAssetJoin, hfind, Pool.GetTotalWeight,
    Pool.GetTotalShares, calcPoolOutGivenSingleIn, solveConstantFunctionInvariant,
    osmomathPow, if_neg hguard, if_neg hbase]
  rw [show (1 - (asset.weight : ℚ) / (p.totalWeight : ℚ)) * swapFee
      = swapFee * (1 - (asset.weight : ℚ) / (p.totalWeight : ℚ)) from mul_comm _ _]
  rfl

/-- C5: singleAssetJoin mints
truncate(-solveInvariant(balance + amount * (1 - swapFee * (1 - w)), balance, w, totalShares, 1))
shares, with w the deposited asset normalized weight, truncation toward zero,
and the operation fails with InvalidMathApprox exactly when the truncated
result is non-positive (the positivity check lives in the keeper join
orchestrator, not under src/, and is modelled from the spec). -/
theorem singleAssetJoin_spec (p : Pool) (tokenIn : Coin) (swapFee : ℚ) (asset : PoolAsset)
    (hfind : p.GetPoolAsset tokenIn.denom = some asset)
    (hbal : 0 < asset.token.amount)
    (hamt : 0 ≤ tokenIn.amount)
    (hfee0 : 0 ≤ swapFee) (hfee1 : swapFee ≤ 1)
    (hw0 : 0 < asset.weight) (hwT : asset.weight ≤ p.totalWeight) :
    singleAssetJoinOp p tokenIn swapFee =
      (let w := (asset.weight : ℚ) / (p.totalWeight : ℚ)
       let t := truncateInt (-((p.totalSharesAmount : ℚ) *
         (1 - powSeries (((asset.token.amount : ℚ) +
             (tokenIn.amount : ℚ) * (1 - swapFee * (1 - w))) / (asset.token.amount : ℚ))
           (w / 1))))
       if t ≤ 0 then .error .invalidMathApprox else .ok t) := by
  simp only [singleAssetJoinOp,
    singleAssetJoin_formula p tokenIn swapFee asset hfind hbal hamt hfee0 hfee1 hw0 hwT]

theorem singleAssetJoin_spec_witness :
    singleAssetJoinOp twoAssetPool ⟨0, 100⟩ 0 =
      (let w := ((1 : ℤ) : ℚ) / ((2 : ℤ) : ℚ)
       let t := truncateInt (-(((100 : ℤ) : ℚ) *
         (1 - powSeries ((((1000 : ℤ) : ℚ) +
             ((100 : ℤ) : ℚ) * (1 - 0 * (1 - w))) / ((1000 : ℤ) : ℚ))
           (w / 1))))
       if t ≤ 0 then .error .invalidMathApprox else .ok t) :=
  singleAssetJoin_spec twoAssetPool ⟨0, 100⟩ 0 ⟨⟨0, 1000⟩, 1⟩
    rfl (by decide) (by decide) (le_refl 0) zero_le_one (by decide) (by decide)

/-- C9: a successful joinPool returns the minted shares together with the
mutated pool: the deposited asset balance is increased by the deposit and
totalShares is increased by the (positive) minted share amount; a non-positive
computed amount fails instead.  The application of the state change lives in
the keeper join orchestrator, not under src/, and is modelled from the spec. -/
theorem joinPool_mutates_pool (p : Pool) (tokenIn : Coin) (swapFee : ℚ) (asset : PoolAsset)
    (hfind : p.GetPoolAsset tokenIn.denom = some asset)
    (hbal : 0 < asset.token.amount)
    (hamt : 0 ≤ tokenIn.amount)
    (hfee0 : 0 ≤ swapFee) (hfee1 : swapFee ≤ 1)
    (hw0 : 0 < asset.weight) (hwT : asset.weight ≤ p.totalWeight) :
    joinPoolOp p [tokenIn] swapFee =
      (let w := (asset.weight : ℚ) / (p.totalWeight : ℚ)
       let t := truncateInt (-((p.totalSharesAmount : ℚ) *
         (1 - powSeries (((asset.token.amount : ℚ) +
             (tokenIn.amount : ℚ) * (1 - swapFee * (1 - w))) / (asset.token.amount : ℚ))
           (w / 1))))
       let updatedAssets := p.poolAssets.map (fun a =>
         if a.token.denom = tokenIn.denom then
           { a with token := ⟨a.token.denom, a.token.amount + tokenIn.amount⟩ } else a)
       if t ≤ 0 then .error .invalidMathApprox
       else .ok (t, { p with poolAssets := updatedAssets,
                             totalSharesAmount := p.totalSharesAmount + t })) := by
  simp only [joinPoolOp, Pool.JoinPool,
    singleAssetJoin_formula p tokenIn swapFee asset hfind hbal hamt hfee0 hfee1 hw0 hwT,
    List.foldl, Pool.addAmount]

/-- Lookup of the first coin carrying a denomination in a coin list. -/
def findCoin : List Coin → Denom → Option Coin
  | [], _ => none
  | c :: rest, d => if c.denom = d then some c else findCoin rest d

/-- A denomination absent from a coin list is not found. -/
theorem findCoin_eq_none (t : List Coin) (d : Denom) (h : d ∉ t.map (fun c => c.denom)) :
    findCoin t d = none := by
  induction t with
  | nil => rfl
  | cons c rest ih =>
    simp only [List.map_cons, List.mem_cons] at h
    push_neg at h
    have hne2 : c.denom ≠ d := fun he => h.1 he.symm
    simp only [findCoin, if_neg hne2]
    exact ih h.2

/-- The withdrawal loop of ExitPool, characterized: folding the per-asset
withdrawal step over a snapshot of the balances appends exactly the positive
truncated amounts and applies each balance reduction once, provided the
snapshot's denominations are distinct. -/
theorem exit_foldl_aux (quot : ℚ) (l : List Coin) (cs : List Coin) (q : Pool)
    (hn : (l.map (fun c => c.denom)).Nodup) :
    l.foldl (fun acc asset =>
        if truncateInt (quot * (asset.amount : ℚ)) ≤ 0 then acc
        else (acc.1 ++ [⟨asset.denom, truncateInt (quot * (asset.amount : ℚ))⟩],
              acc.2.UpdatePoolAssetBalance
                ⟨asset.denom, asset.amount - truncateInt (quot * (asset.amount : ℚ))⟩)) (cs, q)
      = (cs ++ l.filterMap (fun c =>
            if truncateInt (quot * (c.amount : ℚ)) ≤ 0 then none
            else some ⟨c.denom, truncateInt (quot * (c.amount : ℚ))⟩),
         { q with poolAssets := q.poolAssets.map (fun a =>
             match findCoin l a.token.denom with
             | none => a
             | some c =>
               if truncateInt (quot * (c.amount : ℚ)) ≤ 0 then a
               else { a with token := ⟨a.token.denom,
                        c.amount - truncateInt (quot * (c.amount : ℚ))⟩ }) }) := by
  induction l generalizing cs q with
  | nil =>
    simp [findCoin]
  | cons c t ih =>
    simp only [List.map_cons, List.nodup_cons] at hn
    obtain ⟨hc_notin, hn_t⟩ := hn
    have hnone : findCoin t c.denom = none := findCoin_eq_none t c.denom hc_notin
    simp only [List.foldl_cons]
    by_cases hc : truncateInt (quot * (c.amount : ℚ)) ≤ 0
    · rw [if_pos hc]
      rw [ih cs q hn_t]
      have hlist : (q.poolAssets.map (fun a =>
             match findCoin t a.token.denom with
             | none => a
             | some c =>
               if truncateInt (quot * (c.amount : ℚ)) ≤ 0 then a
               else { a with token := ⟨a.token.denom,
                        c.amount - truncateInt (quot * (c.amount : ℚ))⟩ }))
          = q.poolAssets.map (fun a =>
             match findCoin (c :: t) a.token.denom with
             | none => a
             | some c =>
               if truncateInt (quot * (c.amount : ℚ)) ≤ 0 then a
               else { a with token := ⟨a.token.denom,
                        c.amount - truncateInt (quot * (c.amount : ℚ))⟩ }) := by
        refine List.map_congr_left ?_
        intro a _
        by_cases ha : a.token.denom = c.denom
        · rw [ha, hnone]
          simp [findCoin, hc]
        · simp only [findCoin, if_neg (show c.denom ≠ a.token.denom from fun he => ha he.symm)]
      rw [hlist]
      have hfc : (fun c => if truncateInt (quot * ((c : Coin).amount : ℚ)) ≤ 0 then none
          else some (⟨c.denom, truncateInt (quot * (c.amount : ℚ))⟩ : Coin)) c = none := by
        dsimp only
        rw [if_pos hc]
      simp only [List.filterMap_cons, hfc]
    · rw [if_neg hc]
      rw [ih _ _ hn_t]
      have hfc : (fun c => if truncateInt (quot * ((c : Coin).amount : ℚ)) ≤ 0 then none
          else some (⟨c.denom, truncateInt (quot * (c.amount : ℚ))⟩ : Coin)) c
          = some ⟨c.denom, truncateInt (quot * (c.amount : ℚ))⟩ := by
        dsimp only
        rw [if_neg hc]
      simp only [List.filterMap_cons, hfc]
      dsimp only [Pool.UpdatePoolAssetBalance]
      have hlist : ((q.poolAssets.map (fun a =>
            if a.token.denom = (⟨c.denom, c.amount - truncateInt (quot * (c.amount : ℚ))⟩ : Coin).denom
            then { a with token := ⟨c.denom, c.amount - truncateInt (quot * (c.amount : ℚ))⟩ } else a)).map
              (fun a =>
             match findCoin t a.token.denom with
             | none => a
             | some c =>
               if truncateInt (quot * (c.amount : ℚ)) ≤ 0 then a
               else { a with token := ⟨a.token.denom,
                        c.amount - truncateInt (quot * (c.amount : ℚ))⟩ }))
          = q.poolAssets.map (fun a =>
             match findCoin (c :: t) a.token.denom with
             | none => a
             | some c =>
               if truncateInt (quot * (c.amount : ℚ)) ≤ 0 then a
               else { a with token := ⟨a.token.denom,
                        c.amount - truncateInt (quot * (c.amount : ℚ))⟩ }) := by
        rw [List.map_map]
        refine List.map_congr_left ?_
        intro a _
        by_cases ha : a.token.denom = c.denom
        · simp only [Function.comp_apply, if_pos ha]
          have hd : ({ a with token := (⟨c.denom,
              c.amount - truncateInt (quot * (c.amount : ℚ))⟩ : Coin) } : PoolAsset).token.denom
              = c.denom := rfl
          simp only [hd, hnone]
          rw [ha]
          simp [findCoin, hc]
        · simp only [Function.comp_apply, if_neg ha]
          simp only [findCoin,
            if_neg (show c.denom ≠ a.token.denom from fun he => ha he.symm)]
      rw [hlist]
      simp

/-- With distinct denominations, looking a pool asset's own denomination up in
the snapshot of all balances finds that asset's token. -/
theorem findCoin_token_self (l : List PoolAsset)
    (hnodup : (l.map (fun a => a.token.denom)).Nodup) (a : PoolAsset) (ha : a ∈ l) :
    findCoin (l.map (fun x => x.token)) a.token.denom = some a.token := by
  induction l with
  | nil => cases ha
  | cons b t ih =>
    simp only [List.map_cons, List.nodup_cons] at hnodup
    obtain ⟨hb_notin, hn_t⟩ := hnodup
    rcases List.mem_cons.1 ha with rfl | hat
    · simp [findCoin]
    · have hne2 : b.token.denom ≠ a.token.denom := by
        intro he
        exact hb_notin (by rw [he]; exact List.mem_map_of_mem _ hat)
      simp only [List.map_cons, findCoin, if_neg hne2]
      exact ih hn_t hat

/-- C2: ExitPool fails with ExcessiveShareRedemption exactly when
exitingShares is at least totalShares, leaving the pool unchanged; otherwise it
computes refundedShares = truncate(exitingShares * (1 - exitFee)) (exactly
exitingShares when the exit fee is zero), sets shareOutRatio = totalShares /
refundedShares, withdraws truncate(shareOutRatio * balance) from every asset
(skipping assets whose computed amount is non-positive), and reduces
totalShares by the full exitingShares, not by refundedShares. -/
theorem exitPool_spec (p : Pool) (exitingShares refunded : ℤ) (exitFee : ℚ) (quot : ℚ)
    (hnodup : (p.poolAssets.map (fun a => a.token.denom)).Nodup)
    (hrefunded : refunded = if exitFee = 0 then exitingShares
        else truncateInt ((1 - exitFee) * (exitingShares : ℚ)))
    (hquot : quot = (p.totalSharesAmount : ℚ) / (refunded : ℚ)) :
    p.ExitPool exitingShares exitFee =
      if p.totalSharesAmount ≤ exitingShares then (.error .excessiveShareRedemption, p)
      else
        (let updatedAssets := p.poolAssets.map (fun a =>
           if truncateInt (quot * (a.token.amount : ℚ)) ≤ 0 then a
           else { a with token := ⟨a.token.denom,
                    a.token.amount - truncateInt (quot * (a.token.amount : ℚ))⟩ })
         (.ok (p.poolAssets.filterMap (fun a =>
            if truncateInt (quot * (a.token.amount : ℚ)) ≤ 0 then none
            else some ⟨a.token.denom, truncateInt (quot * (a.token.amount : ℚ))⟩)),
          { p with poolAssets := updatedAssets,
                   totalSharesAmount := p.totalSharesAmount - exitingShares })) := by
  subst hquot
  subst hrefunded
  by_cases hge : p.totalSharesAmount ≤ exitingShares
  · rw [if_pos hge]
    simp only [Pool.ExitPool, Pool.GetTotalShares]
    rw [if_pos hge]
  · rw [if_neg hge]
    simp only [Pool.ExitPool, Pool.GetTotalShares, Pool.GetTotalLpBalances]
    rw [if_neg hge]
    rw [exit_foldl_aux _ _ _ _ (by rw [List.map_map]; exact hnodup)]
    have hfinal : p.poolAssets.map (fun a =>
        match findCoin (p.poolAssets.map (fun x => x.token)) a.token.denom with
        | none => a
        | some c =>
          if truncateInt ((p.totalSharesAmount : ℚ) /
              (((if exitFee = 0 then exitingShares
                 else truncateInt ((1 - exitFee) * (exitingShares : ℚ))) : ℤ) : ℚ) *
            (c.amount : ℚ)) ≤ 0 then a
          else { a with token := ⟨a.token.denom,
                   c.amount - truncateInt ((p.totalSharesAmount : ℚ) /
              (((if exitFee = 0 then exitingShares
                 else truncateInt ((1 - exitFee) * (exitingShares : ℚ))) : ℤ) : ℚ) *
            (c.amount : ℚ))⟩ })
        = p.poolAssets.map (fun a =>
            if truncateInt ((p.totalSharesAmount : ℚ) /
              (((if exitFee = 0 then exitingShares
                 else truncateInt ((1 - exitFee) * (exitingShares : ℚ))) : ℤ) : ℚ) *
                (a.token.amount : ℚ)) ≤ 0 then a
            else { a with token := ⟨a.token.denom,
                     a.token.amount - truncateInt ((p.totalSharesAmount : ℚ) /
              (((if exitFee = 0 then exitingShares
                 else truncateInt ((1 - exitFee) * (exitingShares : ℚ))) : ℤ) : ℚ) *
                (a.token.amount : ℚ))⟩ }) := by
      refine List.map_congr_left ?_
      intro a ha
      rw [findCoin_token_self p.poolAssets hnodup a ha]
    rw [hfinal, List.filterMap_map]
    rfl

theorem exitPool_spec_witness :
    twoAssetPool.ExitPool 50 0 =
      (if twoAssetPool.totalSharesAmount ≤ 50 then (.error .excessiveShareRedemption, twoAssetPool)
       else
        (let updatedAssets := twoAssetPool.poolAssets.map (fun a =>
           if truncateInt ((twoAssetPool.totalSharesAmount : ℚ) / ((50 : ℤ) : ℚ) *
               (a.token.amount : ℚ)) ≤ 0 then a
           else { a with token := ⟨a.token.denom,
                    a.token.amount - truncateInt ((twoAssetPool.totalSharesAmount : ℚ) /
                      ((50 : ℤ) : ℚ) * (a.token.amount : ℚ))⟩ })
         (.ok (twoAssetPool.poolAssets.filterMap (fun a =>
            if truncateInt ((twoAssetPool.totalSharesAmount : ℚ) / ((50 : ℤ) : ℚ) *
                (a.token.amount : ℚ)) ≤ 0 then none
            else some ⟨a.token.denom, truncateInt ((twoAssetPool.totalSharesAmount : ℚ) /
                ((50 : ℤ) : ℚ) * (a.token.amount : ℚ))⟩)),
          { twoAssetPool with poolAssets := updatedAssets,
                              totalSharesAmount := twoAssetPool.totalSharesAmount - 50 }))) :=
  exitPool_spec twoAssetPool 50 50 0
    ((twoAssetPool.totalSharesAmount : ℚ) / ((50 : ℤ) : ℚ)) (by decide) (by simp) rfl

theorem joinPool_mutates_pool_witness :
    joinPoolOp twoAssetPool [⟨0, 100⟩] 0 =
      (let w := ((1 : ℤ) : ℚ) / ((2 : ℤ) : ℚ)
       let t := truncateInt (-(((100 : ℤ) : ℚ) *
         (1 - powSeries ((((1000 : ℤ) : ℚ) +
             ((100 : ℤ) : ℚ) * (1 - 0 * (1 - w))) / ((1000 : ℤ) : ℚ))
           (w / 1))))
       let updatedAssets := twoAssetPool.poolAssets.map (fun a =>
         if a.token.denom = 0 then
           { a with token := ⟨a.token.denom, a.token.amount + 100⟩ } else a)
       if t ≤ 0 then .error .invalidMathApprox
       else .ok (t, { twoAssetPool with poolAssets := updatedAssets,
                                        totalSharesAmount := twoAssetPool.totalSharesAmount + t })) :=
  joinPool_mutates_pool twoAssetPool ⟨0, 100⟩ 0 ⟨⟨0, 1000⟩, 1⟩
    rfl (by decide) (by decide) (le_refl 0) zero_le_one (by decide) (by decide)
